import Mathlib

/-!
Verification of the Behavioral Profile Synthesis Engine of the
crucible-chrome-extension repository.

The development shallowly embeds the relevant JavaScript source:

* `src/storage/databaseService.js` (`src/unnamed/part_000`): the `LTPBuilder`
  class (`coldStartLTP`, `updateLTP`, `calculateTimeDecay`, `applyTimeDecay`,
  `mergeTopicScores`, `updateEWMA`, `updateIntentAggregate`, `getEmptyLTP`),
  the `DatabaseService` STP builder (`normalizeTopicMap`,
  `calculateSessionDurationFromBehaviors`, `getEmptySTP`, `buildSTP`).
* `src/popup/popup.js`: the AI orchestrator's task queue
  (`addToQueue`, `processQueue`).

Modelling conventions:

* JavaScript numbers are modelled as real numbers (`ℝ`).
* JavaScript objects used as string-keyed maps are modelled as association
  lists `List (String × α)`; `Object.keys` iteration becomes a fold over the
  list, property read `m[k]` with an `|| 0` default becomes `jsGet`, and
  property write `m[k] = v` becomes `setEntry` (update in place if the key is
  present, append otherwise).  JavaScript objects cannot contain a key twice,
  so theorems that need it assume the key list has no duplicates.
* The JavaScript idiom `x || d` on a number `x` substitutes `d` exactly when
  `x` is falsy; for a present, non-NaN number that means `x = 0`.  It is
  modelled by `jsOr x d = if x = 0 then d else x`.
* Timestamps (ISO strings / `Date` values in the source) are modelled as real
  numbers of milliseconds since the epoch; `null`/absent timestamps as
  `Option ℝ`.
-/

namespace Crucible

open Classical in
/-- Model of the JavaScript numeric idiom `x || d`: a present, non-NaN number
is falsy exactly when it is `0`, in which case the default `d` is used. -/
noncomputable def jsOr (x d : ℝ) : ℝ := if x = 0 then d else x

/-- Read `m[k]` from an object used as a map, with the `|| 0` / absent-key
default of the source: missing keys read as `0`. -/
def jsGet (m : List (String × ℝ)) (k : String) : ℝ :=
  match m with
  | [] => 0
  | p :: rest => if p.1 = k then p.2 else jsGet rest k

/-- Write `m[k] = v` on an object used as a map: if the key is present its
value is replaced in place, otherwise the new entry is appended (JavaScript
property insertion order). -/
def setEntry (m : List (String × ℝ)) (k : String) (v : ℝ) : List (String × ℝ) :=
  if m.any (fun p => p.1 = k) then m.map (fun p => if p.1 = k then (k, v) else p)
  else m ++ [(k, v)]

/-- One value of an STP `topic_cumulative` entry (`buildEnhancedTopicCumulative`
pairs a raw score with a normalized weight). -/
structure TopicData where
  rawScore : ℝ
  normalizedWeight : ℝ

/-- Read `m[k].rawScore` from an STP `topic_cumulative` object, `0` when the
topic is absent. -/
def jsGetRaw (m : List (String × TopicData)) (k : String) : ℝ :=
  match m with
  | [] => 0
  | p :: rest => if p.1 = k then p.2.rawScore else jsGetRaw rest k

/-- Short-Term Profile, the object built by `DatabaseService.buildSTP`. -/
structure STP where
  session_id : String
  session_length_min : ℝ
  engagement_confidence : ℝ
  diversity_entropy : ℝ
  dominant_topic : String
  intent_focus : String
  intent_scores : List (String × ℝ)
  topic_cumulative : List (String × TopicData)
  calculated_at : ℝ

/-- Long-Term Profile, the object built and updated by `LTPBuilder`. -/
structure LTP where
  topic_cumulative : List (String × ℝ)
  sessions_seen : ℕ
  ewma_focus : ℝ
  ewma_depth : ℝ
  intent_aggregate : List (String × ℝ)
  last_updated : Option ℝ
  confidence : ℝ

/-- `this.DECAY_CONSTANT = 1/30` in `LTPBuilder`. -/
noncomputable def DECAY_CONSTANT : ℝ := 1 / 30

/-- `this.EWMA_ALPHA = 0.1` in `LTPBuilder`. -/
noncomputable def EWMA_ALPHA : ℝ := 0.1

/-- `this.MAX_SESSIONS_FOR_CONFIDENCE = 8` in `LTPBuilder`. -/
def MAX_SESSIONS_FOR_CONFIDENCE : ℕ := 8

/-- `LTPBuilder.getEmptyLTP`. -/
def getEmptyLTP : LTP :=
  { topic_cumulative := []
    sessions_seen := 0
    ewma_focus := 0.5
    ewma_depth := 0.5
    intent_aggregate := []
    last_updated := none
    confidence := 0 }

open Classical in
/-- `LTPBuilder.coldStartLTP`.  Rejects sessions with
`engagement_confidence < 0.5`; otherwise seeds the LTP from the STP.  The
source reads `stp.engagement_confidence || 0.5` and
`1 - (stp.diversity_entropy || 0.5)`, modelled by `jsOr`. -/
noncomputable def coldStartLTP (stp : STP) : LTP :=
  if stp.engagement_confidence < 0.5 then getEmptyLTP
  else
    { topic_cumulative := stp.topic_cumulative.map (fun p => (p.1, p.2.rawScore))
      sessions_seen := 1
      ewma_focus := jsOr stp.engagement_confidence 0.5
      ewma_depth := 1 - jsOr stp.diversity_entropy 0.5
      intent_aggregate := stp.intent_scores
      last_updated := some stp.calculated_at
      confidence := 1 / (MAX_SESSIONS_FOR_CONFIDENCE : ℝ) }

/-- `LTPBuilder.calculateTimeDecay`: `1` when there is no previous timestamp,
otherwise `clamp(exp(-DECAY_CONSTANT * Δdays), 0, 1)` with
`Δdays = (new - last) / (1000*60*60*24)` milliseconds-to-days. -/
noncomputable def calculateTimeDecay (lastUpdated : Option ℝ) (newTimestamp : ℝ) : ℝ :=
  match lastUpdated with
  | none => 1
  | some lastDate =>
    let timeDiffMs := newTimestamp - lastDate
    let timeDiffDays := timeDiffMs / (1000 * 60 * 60 * 24)
    let decayFactor := Real.exp (-(DECAY_CONSTANT * timeDiffDays))
    max 0 (min 1 decayFactor)

/-- `LTPBuilder.applyTimeDecay`: multiply every topic score by the decay
factor. -/
def applyTimeDecay (topicScores : List (String × ℝ)) (decayFactor : ℝ) :
    List (String × ℝ) :=
  topicScores.map (fun p => (p.1, p.2 * decayFactor))

/-- `LTPBuilder.mergeTopicScores`: starting from the decayed LTP scores, for
each STP topic add `rawScore * stpWeight` onto the existing entry
(`(mergedScores[topic] || 0) + weightedScore`). -/
def mergeTopicScores (decayedLTPScores : List (String × ℝ)) (newSTP : STP)
    (stpWeight : ℝ) : List (String × ℝ) :=
  newSTP.topic_cumulative.foldl
    (fun acc p => setEntry acc p.1 (jsGet acc p.1 + p.2.rawScore * stpWeight))
    decayedLTPScores

/-- `LTPBuilder.updateEWMA` for a present numeric sample:
`(1 - alpha) * old + alpha * new`.  (The source returns `oldValue` when the
sample is `undefined`/`null`; in this model samples are always numbers.) -/
noncomputable def updateEWMA (oldValue newValue alpha : ℝ) : ℝ :=
  (1 - alpha) * oldValue + alpha * newValue

/-- `LTPBuilder.updateIntentAggregate`: copy the old intents, then for every
intent type present in the new intents blend
`EWMA(oldIntents[type] || 0, newIntents[type], alpha)`. -/
noncomputable def updateIntentAggregate (oldIntents newIntents : List (String × ℝ))
    (alpha : ℝ) : List (String × ℝ) :=
  newIntents.foldl
    (fun acc p => setEntry acc p.1 (updateEWMA (jsGet oldIntents p.1) p.2 alpha))
    oldIntents

open Classical in
/-- `LTPBuilder.updateLTP` (the warm update).  Note the source passes
`newSTP.engagement_confidence || 0.5` as the merge weight and uses
`1 - (newSTP.diversity_entropy || 0.5)` as the depth sample. -/
noncomputable def updateLTP (currentLTP : LTP) (newSTP : STP) : LTP :=
  let timeDecayFactor := calculateTimeDecay currentLTP.last_updated newSTP.calculated_at
  let decayedTopicScores := applyTimeDecay currentLTP.topic_cumulative timeDecayFactor
  let mergedTopicScores :=
    mergeTopicScores decayedTopicScores newSTP (jsOr newSTP.engagement_confidence 0.5)
  let updatedFocus := updateEWMA currentLTP.ewma_focus newSTP.engagement_confidence EWMA_ALPHA
  let depth_preference := 1 - jsOr newSTP.diversity_entropy 0.5
  let updatedDepth := updateEWMA currentLTP.ewma_depth depth_preference EWMA_ALPHA
  let updatedIntentAggregate :=
    updateIntentAggregate currentLTP.intent_aggregate newSTP.intent_scores EWMA_ALPHA
  let shouldCountSession := 0.5 ≤ newSTP.engagement_confidence
  let updatedSessionsSeen :=
    if shouldCountSession then currentLTP.sessions_seen + 1 else currentLTP.sessions_seen
  let updatedConfidence := min 1 ((updatedSessionsSeen : ℝ) / (MAX_SESSIONS_FOR_CONFIDENCE : ℝ))
  { topic_cumulative := mergedTopicScores
    sessions_seen := updatedSessionsSeen
    ewma_focus := updatedFocus
    ewma_depth := updatedDepth
    intent_aggregate := updatedIntentAggregate
    last_updated := some newSTP.calculated_at
    confidence := updatedConfidence }

open Classical in
/-- The dispatch of `LTPBuilder.buildLTP`: cold start when
`currentLTP.sessions_seen === 0 || !currentLTP.last_updated`, warm update
otherwise (persistence omitted). -/
noncomputable def buildLTPPure (currentLTP : LTP) (stpData : STP) : LTP :=
  if currentLTP.sessions_seen = 0 ∨ currentLTP.last_updated = none then coldStartLTP stpData
  else updateLTP currentLTP stpData

open Classical in
/-- `DatabaseService.normalizeTopicMap`: divide by the total (empty when the
total is `0`), drop normalized entries below `0.01`, renormalize the rest when
their sum is positive. -/
noncomputable def normalizeTopicMap (topicMap : List (String × ℝ)) :
    List (String × ℝ) :=
  let totalScore := (topicMap.map Prod.snd).sum
  if totalScore = 0 then []
  else
    let normalizedMap :=
      (topicMap.map (fun p => (p.1, p.2 / totalScore))).filter (fun p => 0.01 ≤ p.2)
    let newTotal := (normalizedMap.map Prod.snd).sum
    if 0 < newTotal then normalizedMap.map (fun p => (p.1, p.2 / newTotal))
    else normalizedMap

/-- A PageEvent / URL-behavior record, the part of it read by
`calculateSessionDurationFromBehaviors` and `calculateEngagementConfidence`:
`activeTime` is in seconds, `startTime`/`endTime` are timestamps (absent or
invalid dates are modelled as `none`). -/
structure UrlBehavior where
  activeTime : Option ℝ
  startTime : Option ℝ
  endTime : Option ℝ
  engagementScore : Option ℝ

/-- A SearchEvent record, the part of it read by the session-metric
calculations. -/
structure SearchEvent where
  query : String
  processed : Bool
  confidence : Option ℝ
  specificity : Option ℝ

open Classical in
/-- `DatabaseService.calculateSessionDurationFromBehaviors`: `1` for an empty
behavior list; otherwise the maximum of (a) total `activeTime` converted from
seconds to minutes, (b) the span from the earliest `startTime` to the latest
`endTime` in minutes (defaulting to `1` when no behavior has both
timestamps), and (c) `1`. -/
noncomputable def calculateSessionDurationFromBehaviors
    (urlBehaviors : List UrlBehavior) : ℝ :=
  if urlBehaviors = [] then 1
  else
    let totalActiveSeconds := (urlBehaviors.map (fun b => b.activeTime.getD 0)).sum
    let sessionDurationFromActive := totalActiveSeconds / 60
    let validTimes := urlBehaviors.filterMap (fun b =>
      match b.startTime, b.endTime with
      | some s, some e => some (s, e)
      | _, _ => none)
    let sessionDurationFromTimestamps :=
      match validTimes with
      | [] => 1
      | t :: ts =>
        let minStart := (ts.map Prod.fst).foldl min t.1
        let maxEnd := (ts.map Prod.snd).foldl max t.2
        (maxEnd - minStart) / (1000 * 60)
    max sessionDurationFromActive (max sessionDurationFromTimestamps 1)

/-- `DatabaseService.getEmptySTP`: the sentinel STP returned when a session
has no events (`calculated_at` abstracts `new Date().toISOString()`). -/
def getEmptySTP (sessionId : String) (now : ℝ) : STP :=
  { session_id := sessionId
    session_length_min := 0
    engagement_confidence := 0
    diversity_entropy := 0
    dominant_topic := "General"
    intent_focus := "unknown"
    intent_scores := []
    topic_cumulative := []
    calculated_at := now }

open Classical in
/-- The `session_length_min` field of the STP returned by
`DatabaseService.buildSTP`: when the session has no searches and no URL
behaviors `buildSTP` returns `getEmptySTP` (whose field is `0`); otherwise
`calculateSessionMetrics` sets it to
`calculateSessionDurationFromBehaviors(urlBehaviors)`. -/
noncomputable def buildSTP_session_length_min (searches : List SearchEvent)
    (urlBehaviors : List UrlBehavior) (sessionId : String) (now : ℝ) : ℝ :=
  if searches = [] ∧ urlBehaviors = [] then (getEmptySTP sessionId now).session_length_min
  else calculateSessionDurationFromBehaviors urlBehaviors

/-- A task in the AI orchestrator's in-memory queue (`popup.js addToQueue`):
`priority` (1 = highest), `timestamp = Date.now()` at creation. -/
structure QTask where
  id : String
  priority : ℕ
  timestamp : ℕ
deriving DecidableEq

/-- The comparator `addToQueue` sorts with (`a.priority - b.priority`,
ties by `a.timestamp - b.timestamp`), as the ordering it induces. -/
def taskLE (a b : QTask) : Prop :=
  if a.priority = b.priority then a.timestamp ≤ b.timestamp
  else a.priority ≤ b.priority

instance : DecidableRel taskLE := fun a b => by unfold taskLE; infer_instance

instance : IsTotal QTask taskLE :=
  ⟨by intro a b; unfold taskLE; split_ifs <;> omega⟩

instance : IsTrans QTask taskLE :=
  ⟨by intro a b c h1 h2; unfold taskLE at *; split_ifs at * <;> omega⟩

/-- `popup.js addToQueue`: push the task and re-sort the queue with the
`(priority asc, timestamp asc)` comparator (JavaScript `Array.prototype.sort`
is stable, as is insertion sort). -/
def addToQueue (taskQueue : List QTask) (t : QTask) : List QTask :=
  List.insertionSort taskLE (taskQueue ++ [t])

/-- Submit a batch of tasks in order, starting from an empty queue. -/
def submitAll (tasks : List QTask) : List QTask := tasks.foldl addToQueue []

/-- The worker loop `processQueue` repeatedly `shift()`s the head of the
queue and executes it, so a queue drains in list order. -/
def drainQueue : List QTask → List QTask
  | [] => []
  | t :: rest => t :: drainQueue rest

/-- Execution order of the scheduler on a batch of tasks all submitted before
processing: submit each in order, then drain. -/
def runScheduler (tasks : List QTask) : List QTask := drainQueue (submitAll tasks)

/-- Where a suspended `processQueue` invocation is parked: at the
`await this.checkSessionHealth()` point, or inside `await task.execute()`
running task `t`. -/
inductive InvocationPoint where
  | atHealth : InvocationPoint
  | atExecute : QTask → InvocationPoint
deriving DecidableEq

/-- State of the AI orchestrator relevant to the worker loop: the sorted
`taskQueue`, the `isProcessing` flag, the suspended `processQueue`
invocations (keyed by a fresh id), and the set of tasks whose `execute()`
has started but not yet resolved. -/
structure OrchestratorState where
  taskQueue : List QTask
  isProcessing : Bool
  invocations : List (ℕ × InvocationPoint)
  nextInvocation : ℕ
  executing : List QTask
deriving DecidableEq

/-- Initial orchestrator state (`this.taskQueue = []`,
`this.isProcessing = false`). -/
def orchInit : OrchestratorState :=
  { taskQueue := [], isProcessing := false, invocations := [], nextInvocation := 0,
    executing := [] }

/-- Events of the event-loop interleaving semantics: a task submission
(`addToQueue` runs synchronously, then `processQueue()` starts and suspends
at its health-check await), the resumption of a suspended health check with
a result (`checkAndRecoverSession` can report unhealthy and later healthy),
and the resolution of a running task's `execute()` promise. -/
inductive OrchestratorEvent where
  | submit : QTask → OrchestratorEvent
  | resumeHealth : ℕ → Bool → OrchestratorEvent
  | finishTask : ℕ → OrchestratorEvent

/-- One step of the orchestrator.  `resumeHealth` follows `processQueue`
line by line: on an unhealthy result it sets `this.isProcessing = false` and
returns; on a healthy result it returns if `isProcessing` is set or the queue
is empty, and otherwise sets `isProcessing`, shifts the head task and starts
executing it (synchronously up to the task's own await).  `finishTask`
resumes after `await task.execute()`: the task resolves, `isProcessing` is
cleared, and if the queue is non-empty `processQueue()` is called again,
spawning a fresh invocation suspended at its health check. -/
def orchStep (s : OrchestratorState) (e : OrchestratorEvent) : OrchestratorState :=
  match e with
  | .submit t =>
      { s with taskQueue := addToQueue s.taskQueue t
               invocations := s.invocations ++ [(s.nextInvocation, .atHealth)]
               nextInvocation := s.nextInvocation + 1 }
  | .resumeHealth i healthy =>
      match s.invocations.lookup i with
      | some .atHealth =>
        let s' := { s with invocations := s.invocations.filter (fun p => p.1 ≠ i) }
        if !healthy then { s' with isProcessing := false }
        else if s'.isProcessing || s'.taskQueue.isEmpty then s'
        else
          match s'.taskQueue with
          | [] => s'
          | t :: rest =>
            { s' with isProcessing := true
                      taskQueue := rest
                      executing := s'.executing ++ [t]
                      invocations := s'.invocations ++ [(i, .atExecute t)] }
      | _ => s
  | .finishTask i =>
      match s.invocations.lookup i with
      | some (.atExecute t) =>
        let s' := { s with invocations := s.invocations.filter (fun p => p.1 ≠ i)
                           executing := s.executing.erase t
                           isProcessing := false }
        if s'.taskQueue.isEmpty then s'
        else
          { s' with invocations := s'.invocations ++ [(s'.nextInvocation, .atHealth)]
                    nextInvocation := s'.nextInvocation + 1 }
      | _ => s

/-- Run the orchestrator on a trace of events from the initial state. -/
def orchRun (events : List OrchestratorEvent) : OrchestratorState :=
  events.foldl orchStep orchInit

/-! ## Helper lemmas about the association-list operations -/

theorem jsGet_map_update_of_ne (m : List (String × ℝ)) (k : String) (v : ℝ)
    (k' : String) (h : k' ≠ k) :
    jsGet (m.map (fun p => if p.1 = k then (k, v) else p)) k' = jsGet m k' := by
  have hkk' : ¬ k = k' := fun hkk => h hkk.symm
  induction m with
  | nil => rfl
  | cons p rest ih =>
    by_cases hp : p.1 = k
    · have hpk : ¬ p.1 = k' := by rw [hp]; exact hkk'
      simp [jsGet, hp, hkk', hpk, ih]
    · by_cases hp' : p.1 = k' <;> simp [jsGet, hp, hp', h, hkk', ih]

theorem jsGet_map_update_self (m : List (String × ℝ)) (k : String) (v : ℝ)
    (h : m.any (fun p => p.1 = k)) :
    jsGet (m.map (fun p => if p.1 = k then (k, v) else p)) k = v := by
  induction m with
  | nil => simp at h
  | cons p rest ih =>
    by_cases hp : p.1 = k
    · simp [jsGet, hp]
    · have hrest : rest.any (fun p => p.1 = k) := by
        simp only [List.any_cons, decide_eq_true_eq, Bool.or_eq_true] at h ⊢
        exact h.resolve_left (by simpa using hp)
      simp [jsGet, hp, ih hrest]

theorem jsGet_append_single_of_ne (m : List (String × ℝ)) (k : String) (v : ℝ)
    (k' : String) (h : k' ≠ k) :
    jsGet (m ++ [(k, v)]) k' = jsGet m k' := by
  have hkk' : ¬ k = k' := fun hkk => h hkk.symm
  induction m with
  | nil => simp [jsGet, hkk']
  | cons p rest ih => by_cases hp : p.1 = k' <;> simp [jsGet, hp, ih]

theorem jsGet_append_single_self (m : List (String × ℝ)) (k : String) (v : ℝ)
    (h : ¬ m.any (fun p => p.1 = k)) :
    jsGet (m ++ [(k, v)]) k = v := by
  induction m with
  | nil => simp [jsGet]
  | cons p rest ih =>
    simp only [List.any_cons, Bool.or_eq_true, decide_eq_true_eq, not_or] at h
    simp [jsGet, h.1, ih (by simpa using h.2)]

theorem jsGet_setEntry_self (m : List (String × ℝ)) (k : String) (v : ℝ) :
    jsGet (setEntry m k v) k = v := by
  unfold setEntry
  split_ifs with hc
  · exact jsGet_map_update_self m k v hc
  · exact jsGet_append_single_self m k v hc

theorem jsGet_setEntry_of_ne (m : List (String × ℝ)) (k : String) (v : ℝ)
    (k' : String) (h : k' ≠ k) :
    jsGet (setEntry m k v) k' = jsGet m k' := by
  unfold setEntry
  split_ifs with hc
  · exact jsGet_map_update_of_ne m k v k' h
  · exact jsGet_append_single_of_ne m k v k' h

theorem jsGet_applyTimeDecay (m : List (String × ℝ)) (d : ℝ) (k : String) :
    jsGet (applyTimeDecay m d) k = jsGet m k * d := by
  induction m with
  | nil => simp [applyTimeDecay, jsGet]
  | cons p rest ih =>
    have ih' : jsGet (rest.map (fun p => (p.1, p.2 * d))) k = jsGet rest k * d := by
      simpa [applyTimeDecay] using ih
    by_cases hp : p.1 = k <;> simp [applyTimeDecay, jsGet, hp, ih']

theorem jsGet_mergeFold_of_notin (entries : List (String × TopicData)) (w : ℝ)
    (k : String) (h : ∀ p ∈ entries, p.1 ≠ k) (acc : List (String × ℝ)) :
    jsGet (entries.foldl
        (fun acc p => setEntry acc p.1 (jsGet acc p.1 + p.2.rawScore * w)) acc) k
      = jsGet acc k := by
  induction entries generalizing acc with
  | nil => rfl
  | cons q rest ih =>
    simp only [List.foldl_cons]
    rw [ih (fun p hp => h p (List.mem_cons_of_mem q hp)) _,
      jsGet_setEntry_of_ne _ _ _ _ (Ne.symm (h q (List.mem_cons_self q rest)))]

theorem jsGet_mergeFold (entries : List (String × TopicData)) (w : ℝ)
    (k : String) (hnd : (entries.map Prod.fst).Nodup) (acc : List (String × ℝ)) :
    jsGet (entries.foldl
        (fun acc p => setEntry acc p.1 (jsGet acc p.1 + p.2.rawScore * w)) acc) k
      = jsGet acc k + jsGetRaw entries k * w := by
  induction entries generalizing acc with
  | nil => simp [jsGetRaw]
  | cons q rest ih =>
    simp only [List.foldl_cons]
    rw [List.map_cons, List.nodup_cons] at hnd
    obtain ⟨hqnotin, hndrest⟩ := hnd
    by_cases hqk : q.1 = k
    · subst hqk
      have hrest : ∀ p ∈ rest, p.1 ≠ q.1 := by
        intro p hp hpk
        exact hqnotin (by rw [← hpk]; exact List.mem_map_of_mem Prod.fst hp)
      rw [jsGet_mergeFold_of_notin rest w q.1 hrest _, jsGet_setEntry_self]
      simp [jsGetRaw]
    · rw [ih hndrest _, jsGet_setEntry_of_ne _ _ _ _ (fun hk => hqk hk.symm)]
      simp [jsGetRaw, hqk]

theorem jsGet_mergeTopicScores (decayed : List (String × ℝ)) (stp : STP) (w : ℝ)
    (k : String) (hnd : (stp.topic_cumulative.map Prod.fst).Nodup) :
    jsGet (mergeTopicScores decayed stp w) k
      = jsGet decayed k + jsGetRaw stp.topic_cumulative k * w :=
  jsGet_mergeFold stp.topic_cumulative w k hnd decayed

theorem jsGet_intentFold_of_notin (entries old : List (String × ℝ)) (alpha : ℝ)
    (k : String) (h : ∀ p ∈ entries, p.1 ≠ k) (acc : List (String × ℝ)) :
    jsGet (entries.foldl
        (fun acc p => setEntry acc p.1 (updateEWMA (jsGet old p.1) p.2 alpha)) acc) k
      = jsGet acc k := by
  induction entries generalizing acc with
  | nil => rfl
  | cons q rest ih =>
    simp only [List.foldl_cons]
    rw [ih (fun p hp => h p (List.mem_cons_of_mem q hp)) _,
      jsGet_setEntry_of_ne _ _ _ _ (Ne.symm (h q (List.mem_cons_self q rest)))]

theorem jsGet_intentFold (entries old : List (String × ℝ)) (alpha : ℝ)
    (k : String) (hnd : (entries.map Prod.fst).Nodup) (acc : List (String × ℝ)) :
    jsGet (entries.foldl
        (fun acc p => setEntry acc p.1 (updateEWMA (jsGet old p.1) p.2 alpha)) acc) k
      = if k ∈ entries.map Prod.fst then updateEWMA (jsGet old k) (jsGet entries k) alpha
        else jsGet acc k := by
  induction entries generalizing acc with
  | nil => simp
  | cons q rest ih =>
    simp only [List.foldl_cons]
    rw [List.map_cons, List.nodup_cons] at hnd
    obtain ⟨hqnotin, hndrest⟩ := hnd
    by_cases hqk : q.1 = k
    · subst hqk
      have hrest : ∀ p ∈ rest, p.1 ≠ q.1 := by
        intro p hp hpk
        exact hqnotin (by rw [← hpk]; exact List.mem_map_of_mem Prod.fst hp)
      rw [jsGet_intentFold_of_notin rest old alpha q.1 hrest _, jsGet_setEntry_self]
      simp [jsGet]
    · have hkq : ¬ k = q.1 := fun hh => hqk hh.symm
      rw [ih hndrest _]
      by_cases hmem : k ∈ rest.map Prod.fst
      · simp [jsGet, hqk, hkq, hmem]
      · rw [jsGet_setEntry_of_ne _ _ _ _ hkq]
        simp [jsGet, hqk, hkq, hmem]

theorem jsGet_updateIntentAggregate (oldIntents newIntents : List (String × ℝ))
    (alpha : ℝ) (k : String) (hnd : (newIntents.map Prod.fst).Nodup) :
    jsGet (updateIntentAggregate oldIntents newIntents alpha) k
      = if k ∈ newIntents.map Prod.fst
          then updateEWMA (jsGet oldIntents k) (jsGet newIntents k) alpha
          else jsGet oldIntents k :=
  jsGet_intentFold newIntents oldIntents alpha k hnd oldIntents

/-! ## Field computations of `updateLTP` -/

theorem updateLTP_topic_cumulative (ltp : LTP) (stp : STP) :
    (updateLTP ltp stp).topic_cumulative
      = mergeTopicScores
          (applyTimeDecay ltp.topic_cumulative
            (calculateTimeDecay ltp.last_updated stp.calculated_at))
          stp (jsOr stp.engagement_confidence 0.5) := rfl

theorem updateLTP_sessions_seen (ltp : LTP) (stp : STP) :
    (updateLTP ltp stp).sessions_seen
      = if 0.5 ≤ stp.engagement_confidence then ltp.sessions_seen + 1
        else ltp.sessions_seen := rfl

theorem updateLTP_confidence (ltp : LTP) (stp : STP) :
    (updateLTP ltp stp).confidence
      = min 1 (((updateLTP ltp stp).sessions_seen : ℝ) / (MAX_SESSIONS_FOR_CONFIDENCE : ℝ)) := rfl

theorem updateLTP_ewma_focus (ltp : LTP) (stp : STP) :
    (updateLTP ltp stp).ewma_focus
      = updateEWMA ltp.ewma_focus stp.engagement_confidence EWMA_ALPHA := rfl

theorem updateLTP_ewma_depth (ltp : LTP) (stp : STP) :
    (updateLTP ltp stp).ewma_depth
      = updateEWMA ltp.ewma_depth (1 - jsOr stp.diversity_entropy 0.5) EWMA_ALPHA := rfl

theorem updateLTP_intent_aggregate (ltp : LTP) (stp : STP) :
    (updateLTP ltp stp).intent_aggregate
      = updateIntentAggregate ltp.intent_aggregate stp.intent_scores EWMA_ALPHA := rfl

/-! ## Lemmas about `normalizeTopicMap` -/

theorem sum_map_snd_map_div (l : List (String × ℝ)) (c : ℝ) :
    ((l.map (fun p => (p.1, p.2 / c))).map Prod.snd).sum = (l.map Prod.snd).sum / c := by
  induction l with
  | nil => simp
  | cons p rest ih => simp only [List.map_cons, List.sum_cons, ih, add_div]

theorem sum_map_snd_filter_le (l : List (String × ℝ)) (q : (String × ℝ) → Bool)
    (h : ∀ p ∈ l, 0 ≤ p.2) :
    (((l.filter q).map Prod.snd).sum) ≤ (l.map Prod.snd).sum := by
  induction l with
  | nil => simp
  | cons p rest ih =>
    have hp := h p (List.mem_cons_self p rest)
    have ih' := ih (fun p hp => h p (List.mem_cons_of_mem _ hp))
    by_cases hq : q p <;> simp [List.filter_cons, hq] <;> linarith

theorem normalizeTopicMap_of_total_eq_zero (m : List (String × ℝ))
    (h : (m.map Prod.snd).sum = 0) : normalizeTopicMap m = [] := by
  simp [normalizeTopicMap, h]

theorem normalizeTopicMap_spec (m : List (String × ℝ)) (hnn : ∀ p ∈ m, 0 ≤ p.2)
    (hne : normalizeTopicMap m ≠ []) :
    (∀ p ∈ normalizeTopicMap m, (0.01:ℝ) ≤ p.2 ∧ p.2 ≤ 1)
      ∧ ((normalizeTopicMap m).map Prod.snd).sum = 1 := by
  have hT0 : (0:ℝ) ≤ (m.map Prod.snd).sum := by
    apply List.sum_nonneg
    intro x hx
    obtain ⟨p, hp, rfl⟩ := List.mem_map.mp hx
    exact hnn p hp
  by_cases hT : (m.map Prod.snd).sum = 0
  · exact absurd (normalizeTopicMap_of_total_eq_zero m hT) hne
  have hTpos : 0 < (m.map Prod.snd).sum := lt_of_le_of_ne hT0 (Ne.symm hT)
  have hres : normalizeTopicMap m
      = (if 0 < ((((m.map (fun p => (p.1, p.2 / (m.map Prod.snd).sum))).filter
              (fun p => (0.01:ℝ) ≤ p.2)).map Prod.snd).sum)
          then ((m.map (fun p => (p.1, p.2 / (m.map Prod.snd).sum))).filter
              (fun p => (0.01:ℝ) ≤ p.2)).map
            (fun p => (p.1, p.2 / ((((m.map (fun p => (p.1, p.2 / (m.map Prod.snd).sum))).filter
              (fun p => (0.01:ℝ) ≤ p.2)).map Prod.snd).sum)))
          else ((m.map (fun p => (p.1, p.2 / (m.map Prod.snd).sum))).filter
              (fun p => (0.01:ℝ) ≤ p.2))) := by
    simp only [normalizeTopicMap]
    rw [if_neg hT]
  have hNmem : ∀ p ∈ ((m.map (fun p => (p.1, p.2 / (m.map Prod.snd).sum))).filter
      (fun p => (0.01:ℝ) ≤ p.2)), (0.01:ℝ) ≤ p.2 := by
    intro p hp
    exact of_decide_eq_true (List.mem_filter.mp hp).2
  have hNnonneg : ∀ x ∈ (((m.map (fun p => (p.1, p.2 / (m.map Prod.snd).sum))).filter
      (fun p => (0.01:ℝ) ≤ p.2)).map Prod.snd), (0:ℝ) ≤ x := by
    intro x hx
    obtain ⟨p, hp, rfl⟩ := List.mem_map.mp hx
    linarith [hNmem p hp]
  rcases hNnil : ((m.map (fun p => (p.1, p.2 / (m.map Prod.snd).sum))).filter
      (fun p => (0.01:ℝ) ≤ p.2)) with _ | ⟨q, rest⟩
  · rw [hres, hNnil] at hne
    simp at hne
  have hq2 : (0.01:ℝ) ≤ q.2 := hNmem q (by rw [hNnil]; exact List.mem_cons_self q rest)
  have hqin : q.2 ∈ (((m.map (fun p => (p.1, p.2 / (m.map Prod.snd).sum))).filter
      (fun p => (0.01:ℝ) ≤ p.2)).map Prod.snd) := by
    rw [hNnil]
    exact List.mem_map_of_mem Prod.snd (List.mem_cons_self q rest)
  have hqle : q.2 ≤ (((m.map (fun p => (p.1, p.2 / (m.map Prod.snd).sum))).filter
      (fun p => (0.01:ℝ) ≤ p.2)).map Prod.snd).sum :=
    List.single_le_sum hNnonneg q.2 hqin
  have hNpos : 0 < (((m.map (fun p => (p.1, p.2 / (m.map Prod.snd).sum))).filter
      (fun p => (0.01:ℝ) ≤ p.2)).map Prod.snd).sum := by linarith
  have hNle1 : (((m.map (fun p => (p.1, p.2 / (m.map Prod.snd).sum))).filter
      (fun p => (0.01:ℝ) ≤ p.2)).map Prod.snd).sum ≤ 1 := by
    have hfull : ((m.map (fun p => (p.1, p.2 / (m.map Prod.snd).sum))).map Prod.snd).sum = 1 := by
      rw [sum_map_snd_map_div, div_self hT]
    have hmono := sum_map_snd_filter_le (m.map (fun p => (p.1, p.2 / (m.map Prod.snd).sum)))
      (fun p => decide ((0.01:ℝ) ≤ p.2))
      (by
        intro p hp
        obtain ⟨p', hp', rfl⟩ := List.mem_map.mp hp
        exact div_nonneg (hnn p' hp') hT0)
    rw [hfull] at hmono
    exact hmono
  have hres' : normalizeTopicMap m
      = ((m.map (fun p => (p.1, p.2 / (m.map Prod.snd).sum))).filter
          (fun p => (0.01:ℝ) ≤ p.2)).map
        (fun p => (p.1, p.2 / ((((m.map (fun p => (p.1, p.2 / (m.map Prod.snd).sum))).filter
          (fun p => (0.01:ℝ) ≤ p.2)).map Prod.snd).sum))) := by
    rw [hres, if_pos hNpos]
  constructor
  · intro p hp
    rw [hres'] at hp
    obtain ⟨p', hp', rfl⟩ := List.mem_map.mp hp
    have h001 : (0.01:ℝ) ≤ p'.2 := hNmem p' hp'
    have hle : p'.2 ≤ (((m.map (fun p => (p.1, p.2 / (m.map Prod.snd).sum))).filter
        (fun p => (0.01:ℝ) ≤ p.2)).map Prod.snd).sum :=
      List.single_le_sum hNnonneg p'.2 (List.mem_map_of_mem Prod.snd hp')
    constructor
    · calc (0.01:ℝ) ≤ p'.2 := h001
        _ ≤ p'.2 / ((((m.map (fun p => (p.1, p.2 / (m.map Prod.snd).sum))).filter
            (fun p => (0.01:ℝ) ≤ p.2)).map Prod.snd).sum) := by
          rw [le_div_iff₀ hNpos]
          exact mul_le_of_le_one_right (by linarith) hNle1
    · exact div_le_one_of_le₀ hle (le_of_lt hNpos)
  · rw [hres', sum_map_snd_map_div, div_self (ne_of_gt hNpos)]

theorem normalizeTopicMap_of_normalized (r : List (String × ℝ))
    (hb : ∀ p ∈ r, (0.01:ℝ) ≤ p.2) (hs : (r.map Prod.snd).sum = 1) :
    normalizeTopicMap r = r := by
  have hmapdiv : r.map (fun p => (p.1, p.2 / (1:ℝ))) = r := by
    have hcongr : ∀ p ∈ r, (p.1, p.2 / (1:ℝ)) = id p := by
      intro p hp
      simp
    rw [List.map_congr_left hcongr, List.map_id]
  have hfilter : r.filter (fun p => (0.01:ℝ) ≤ p.2) = r :=
    List.filter_eq_self.mpr (fun p hp => decide_eq_true (hb p hp))
  simp only [normalizeTopicMap]
  rw [hs, if_neg one_ne_zero, hmapdiv, hfilter, hs, if_pos zero_lt_one, hmapdiv]

theorem normalizeTopicMap_idem_aux (m : List (String × ℝ)) (hnn : ∀ p ∈ m, 0 ≤ p.2) :
    normalizeTopicMap (normalizeTopicMap m) = normalizeTopicMap m := by
  by_cases hne : normalizeTopicMap m = []
  · rw [hne]
    exact normalizeTopicMap_of_total_eq_zero [] (by simp)
  · obtain ⟨hb, hs⟩ := normalizeTopicMap_spec m hnn hne
    exact normalizeTopicMap_of_normalized _ (fun p hp => (hb p hp).1) hs

/-! ## Lemmas about `calculateTimeDecay` -/

theorem exp_neg_one_gt : (0.367:ℝ) < Real.exp (-1) := by
  have hpos : (0:ℝ) < Real.exp 1 := Real.exp_pos 1
  have h1 : Real.exp 1 < 2.7182818286 := Real.exp_one_lt_d9
  have hinv : Real.exp 1 * (Real.exp 1)⁻¹ = 1 := mul_inv_cancel₀ (ne_of_gt hpos)
  have hy : (0:ℝ) < (Real.exp 1)⁻¹ := inv_pos.mpr hpos
  rw [Real.exp_neg]
  nlinarith

theorem exp_neg_one_lt : Real.exp (-1) < (0.369:ℝ) := by
  have hpos : (0:ℝ) < Real.exp 1 := Real.exp_pos 1
  have h2 : (2.7182818283:ℝ) < Real.exp 1 := Real.exp_one_gt_d9
  have hinv : Real.exp 1 * (Real.exp 1)⁻¹ = 1 := mul_inv_cancel₀ (ne_of_gt hpos)
  have hy : (0:ℝ) < (Real.exp 1)⁻¹ := inv_pos.mpr hpos
  rw [Real.exp_neg]
  nlinarith

theorem calculateTimeDecay_thirty :
    calculateTimeDecay (some 0) (30 * (1000 * 60 * 60 * 24)) = Real.exp (-1) := by
  have harg : -(DECAY_CONSTANT * ((30 * (1000 * 60 * 60 * 24) - 0) / (1000 * 60 * 60 * 24)))
      = (-1 : ℝ) := by
    unfold DECAY_CONSTANT
    norm_num
  simp only [calculateTimeDecay]
  rw [harg]
  rw [min_eq_right (le_of_lt (lt_trans exp_neg_one_lt (by norm_num)))]
  rw [max_eq_right (le_of_lt (lt_trans (by norm_num) exp_neg_one_gt))]

theorem calculateTimeDecay_same (l : ℝ) : calculateTimeDecay (some l) l = 1 := by
  have harg : -(DECAY_CONSTANT * ((l - l) / (1000 * 60 * 60 * 24))) = (0 : ℝ) := by
    unfold DECAY_CONSTANT
    norm_num
  simp only [calculateTimeDecay]
  rw [harg, Real.exp_zero]
  norm_num

/-! ## Claim theorems -/

/-- **C8** — The time-decay factor equals `clamp(exp(-Δdays/30), 0, 1)`:
it is `1` when `Δdays = 0` and when `lastUpdated` is absent, within `0.001`
of `0.368 ≈ e⁻¹` when `Δdays = 30`, and always lies in `[0, 1]`. -/
theorem claim_C8 :
    (∀ t : ℝ, calculateTimeDecay none t = 1)
    ∧ (∀ l : ℝ, calculateTimeDecay (some l) l = 1)
    ∧ (∀ (l : Option ℝ) (t : ℝ), 0 ≤ calculateTimeDecay l t ∧ calculateTimeDecay l t ≤ 1)
    ∧ |calculateTimeDecay (some 0) (30 * (1000 * 60 * 60 * 24)) - 0.368| < 0.001
    ∧ (∀ l t : ℝ, calculateTimeDecay (some l) t
        = max 0 (min 1 (Real.exp (-(((t - l) / (1000 * 60 * 60 * 24)) / 30))))) := by
  refine ⟨fun t => rfl, calculateTimeDecay_same, ?_, ?_, ?_⟩
  · intro l t
    match l with
    | none => exact ⟨zero_le_one, le_refl 1⟩
    | some x =>
      simp only [calculateTimeDecay]
      exact ⟨le_max_left 0 _, max_le zero_le_one (min_le_left 1 _)⟩
  · rw [calculateTimeDecay_thirty, abs_lt]
    constructor <;> nlinarith [exp_neg_one_gt, exp_neg_one_lt]
  · intro l t
    simp only [calculateTimeDecay, DECAY_CONSTANT]
    congr 3
    ring

/-- **C5** — In every warm update, `sessions_seen` increments by exactly 1
iff `stp.engagement_confidence ≥ 0.5`, afterwards
`confidence = min 1 (sessions_seen / 8)`, and that confidence formula is
monotone non-decreasing in `sessions_seen`. -/
theorem claim_C5 :
    (∀ (ltp : LTP) (stp : STP),
      (0.5 ≤ stp.engagement_confidence →
        (updateLTP ltp stp).sessions_seen = ltp.sessions_seen + 1)
      ∧ (stp.engagement_confidence < 0.5 →
        (updateLTP ltp stp).sessions_seen = ltp.sessions_seen)
      ∧ (updateLTP ltp stp).confidence
          = min 1 (((updateLTP ltp stp).sessions_seen : ℝ) / (MAX_SESSIONS_FOR_CONFIDENCE : ℝ)))
    ∧ (∀ s s' : ℕ, s ≤ s' →
        min (1:ℝ) ((s : ℝ) / (MAX_SESSIONS_FOR_CONFIDENCE : ℝ))
          ≤ min 1 ((s' : ℝ) / (MAX_SESSIONS_FOR_CONFIDENCE : ℝ))) := by
  constructor
  · intro ltp stp
    refine ⟨fun h => ?_, fun h => ?_, updateLTP_confidence ltp stp⟩
    · rw [updateLTP_sessions_seen, if_pos h]
    · rw [updateLTP_sessions_seen, if_neg (not_le.mpr h)]
  · intro s s' h
    refine min_le_min le_rfl ?_
    have h8 : (0:ℝ) < (MAX_SESSIONS_FOR_CONFIDENCE : ℝ) := by
      unfold MAX_SESSIONS_FOR_CONFIDENCE
      norm_num
    exact (div_le_div_iff_of_pos_right h8).mpr (Nat.cast_le.mpr h)

/-- Witness for C5 at a concrete input: a confidence-0.8 session increments
`sessions_seen`, and the confidence formula is monotone from 2 to 3 sessions. -/
theorem claim_C5_witness :
    (updateLTP ⟨[], 4, 0.5, 0.5, [], some 0, 0.5⟩
        ⟨"s", 5, 0.8, 0.5, "t", "unknown", [], [], 1⟩).sessions_seen = 4 + 1
    ∧ min (1:ℝ) (((2:ℕ) : ℝ) / (MAX_SESSIONS_FOR_CONFIDENCE : ℝ))
        ≤ min 1 (((3:ℕ) : ℝ) / (MAX_SESSIONS_FOR_CONFIDENCE : ℝ)) :=
  ⟨(claim_C5.1 ⟨[], 4, 0.5, 0.5, [], some 0, 0.5⟩
      ⟨"s", 5, 0.8, 0.5, "t", "unknown", [], [], 1⟩).1 (by norm_num),
   claim_C5.2 2 3 (by norm_num)⟩

/-! ## Scheduler lemmas -/

theorem drainQueue_eq_self (l : List QTask) : drainQueue l = l := by
  induction l with
  | nil => rfl
  | cons t rest ih => simp [drainQueue, ih]

theorem foldl_addToQueue_sorted (ts : List QTask) (q : List QTask)
    (hq : List.Sorted taskLE q) : List.Sorted taskLE (ts.foldl addToQueue q) := by
  induction ts generalizing q with
  | nil => exact hq
  | cons t rest ih =>
    simp only [List.foldl_cons]
    exact ih _ (List.sorted_insertionSort taskLE _)

theorem foldl_addToQueue_perm (ts : List QTask) (q : List QTask) :
    (ts.foldl addToQueue q).Perm (q ++ ts) := by
  induction ts generalizing q with
  | nil => simp
  | cons t rest ih =>
    simp only [List.foldl_cons]
    refine (ih _).trans ?_
    have h1 : (addToQueue q t ++ rest).Perm ((q ++ [t]) ++ rest) :=
      (List.perm_insertionSort taskLE (q ++ [t])).append_right rest
    have h2 : (q ++ [t]) ++ rest = q ++ (t :: rest) := by simp
    rw [h2] at h1
    exact h1

/-- **C2** — The scheduler executes submitted tasks in `(priority asc,
createdAt asc)` order: the run order is a permutation of the submissions,
pairwise ordered so that a lower priority number runs first and ties are
FIFO by creation time; priorities `[2,1,2]` in creation order `[A,B,C]`
execute as `B, A, C`. -/
theorem claim_C2 :
    (∀ tasks : List QTask,
      (runScheduler tasks).Perm tasks
      ∧ (runScheduler tasks).Pairwise (fun a b =>
          a.priority < b.priority ∨ (a.priority = b.priority ∧ a.timestamp ≤ b.timestamp)))
    ∧ runScheduler [⟨"A", 2, 0⟩, ⟨"B", 1, 1⟩, ⟨"C", 2, 2⟩]
        = [⟨"B", 1, 1⟩, ⟨"A", 2, 0⟩, ⟨"C", 2, 2⟩] := by
  constructor
  · intro tasks
    constructor
    · unfold runScheduler submitAll
      rw [drainQueue_eq_self]
      simpa using foldl_addToQueue_perm tasks []
    · unfold runScheduler submitAll
      rw [drainQueue_eq_self]
      have hsorted := foldl_addToQueue_sorted tasks [] (List.sorted_nil)
      refine hsorted.imp ?_
      intro a b hab
      unfold taskLE at hab
      by_cases hp : a.priority = b.priority
      · rw [if_pos hp] at hab
        exact Or.inr ⟨hp, hab⟩
      · rw [if_neg hp] at hab
        exact Or.inl (lt_of_le_of_ne hab hp)
  · decide

/-! ## The worker-loop interleaving model -/

/-- The event trace on which mutual exclusion fails: task A is started, a
health check taken while A is still executing reports unhealthy (resetting
`isProcessing`), and the next submission's health check passes, starting task
B while A is still in flight. -/
theorem orchRun_two_executing :
    (orchRun
      [.submit ⟨"A", 2, 0⟩, .resumeHealth 0 true, .submit ⟨"B", 2, 1⟩,
       .resumeHealth 1 false, .submit ⟨"C", 2, 2⟩, .resumeHealth 2 true]).executing
      = [⟨"A", 2, 0⟩, ⟨"B", 2, 1⟩] := by decide

/-- **C6** — violated: in the event-loop model of `processQueue` there is a
reachable interleaving with two distinct tasks simultaneously in the
executing state (the unhealthy branch of `processQueue` resets
`this.isProcessing` even while a task is executing). -/
theorem claim_C6 :
    2 ≤ (orchRun
      [.submit ⟨"A", 2, 0⟩, .resumeHealth 0 true, .submit ⟨"B", 2, 1⟩,
       .resumeHealth 1 false, .submit ⟨"C", 2, 2⟩, .resumeHealth 2 true]).executing.length := by
  decide

/-- The warm-update merged-topic formula: for every topic, the merged raw
score is the decayed old score plus the STP raw score weighted by
`engagement_confidence || 0.5`. -/
theorem jsGet_updateLTP_topic (ltp : LTP) (stp : STP) (t : String)
    (hnd : (stp.topic_cumulative.map Prod.fst).Nodup) :
    jsGet (updateLTP ltp stp).topic_cumulative t
      = jsGet ltp.topic_cumulative t * calculateTimeDecay ltp.last_updated stp.calculated_at
        + jsGetRaw stp.topic_cumulative t * jsOr stp.engagement_confidence 0.5 := by
  rw [updateLTP_topic_cumulative, jsGet_mergeTopicScores _ _ _ _ hnd, jsGet_applyTimeDecay]

/-- **C1** (amended) — In every warm update the merged raw topic score is
`decayed[t] + stp.topicCumulative[t].rawScore × w`, where `w` is
`stp.engagementConfidence` when it is nonzero but `0.5` when it is `0`
(the source's `newSTP.engagement_confidence || 0.5`); the concrete
30-day/confidence-0.6 example lands within `0.01` of `6.68` as the claim
states. -/
theorem claim_C1 :
    (∀ (ltp : LTP) (stp : STP) (t : String),
      (stp.topic_cumulative.map Prod.fst).Nodup →
      jsGet (updateLTP ltp stp).topic_cumulative t
        = jsGet ltp.topic_cumulative t * calculateTimeDecay ltp.last_updated stp.calculated_at
          + jsGetRaw stp.topic_cumulative t * jsOr stp.engagement_confidence 0.5)
    ∧ |jsGet (updateLTP ⟨[("topicA", 10)], 3, 0.5, 0.5, [], some 0, 0.375⟩
          ⟨"s", 5, 0.6, 0.5, "topicA", "unknown", [], [("topicA", ⟨5, 1⟩)],
            30 * (1000 * 60 * 60 * 24)⟩).topic_cumulative "topicA" - 6.68| ≤ 0.01 := by
  refine ⟨jsGet_updateLTP_topic, ?_⟩
  rw [jsGet_updateLTP_topic _ _ _ (by decide)]
  rw [show ((⟨[("topicA", 10)], 3, 0.5, 0.5, [], some 0, 0.375⟩ : LTP)).last_updated
      = some 0 from rfl]
  rw [show ((⟨"s", 5, 0.6, 0.5, "topicA", "unknown", [], [("topicA", ⟨5, 1⟩)],
      30 * (1000 * 60 * 60 * 24)⟩ : STP)).calculated_at
      = 30 * (1000 * 60 * 60 * 24) from rfl]
  rw [calculateTimeDecay_thirty]
  have h1 : jsGet ((⟨[("topicA", 10)], 3, 0.5, 0.5, [], some 0, 0.375⟩ : LTP)).topic_cumulative
      "topicA" = 10 := by simp [jsGet]
  have h2 : jsGetRaw ((⟨"s", 5, 0.6, 0.5, "topicA", "unknown", [], [("topicA", ⟨5, 1⟩)],
      30 * (1000 * 60 * 60 * 24)⟩ : STP)).topic_cumulative "topicA" = 5 := by simp [jsGetRaw]
  have h3 : jsOr ((⟨"s", 5, 0.6, 0.5, "topicA", "unknown", [], [("topicA", ⟨5, 1⟩)],
      30 * (1000 * 60 * 60 * 24)⟩ : STP)).engagement_confidence 0.5 = 0.6 := by
    unfold jsOr
    norm_num
  rw [h1, h2, h3, abs_le]
  constructor <;> nlinarith [exp_neg_one_gt, exp_neg_one_lt]

/-- C1 as literally stated is false: with `engagement_confidence = 0` the
source merges with weight `0.5` (JavaScript `0 || 0.5`), not `0`.  At this
input the code yields `10·1 + 5·0.5 = 12.5` while the claim's formula
`decayed + raw × engagementConfidence` yields `10`. -/
theorem claim_C1_counterexample :
    ¬ (jsGet (updateLTP ⟨[("a", 10)], 1, 0.5, 0.5, [], some 0, 0.125⟩
          ⟨"s", 1, 0, 0, "General", "unknown", [], [("a", ⟨5, 1⟩)], 0⟩).topic_cumulative "a"
        = jsGet [("a", (10:ℝ))] "a" * calculateTimeDecay (some 0) 0
          + jsGetRaw [("a", (⟨5, 1⟩ : TopicData))] "a"
            * (⟨"s", 1, 0, 0, "General", "unknown", [], [("a", ⟨5, 1⟩)], 0⟩
                : STP).engagement_confidence) := by
  rw [jsGet_updateLTP_topic _ _ _ (by decide)]
  rw [show ((⟨[("a", 10)], 1, 0.5, 0.5, [], some 0, 0.125⟩ : LTP)).last_updated
      = some 0 from rfl]
  rw [show ((⟨"s", 1, 0, 0, "General", "unknown", [], [("a", ⟨5, 1⟩)], 0⟩ : STP)).calculated_at
      = 0 from rfl]
  rw [calculateTimeDecay_same]
  simp only [jsGet, jsGetRaw, jsOr]
  norm_num

/-- Witness for C1's amended formula at a concrete warm update. -/
theorem claim_C1_witness :
    (((⟨"s", 2, 0.7, 0.5, "a", "unknown", [], [("a", ⟨4, 1⟩)], 0⟩
        : STP).topic_cumulative.map Prod.fst).Nodup)
    ∧ jsGet (updateLTP ⟨[("a", 10)], 2, 0.5, 0.5, [], some 0, 0.25⟩
          ⟨"s", 2, 0.7, 0.5, "a", "unknown", [], [("a", ⟨4, 1⟩)], 0⟩).topic_cumulative "a"
        = jsGet (⟨[("a", 10)], 2, 0.5, 0.5, [], some 0, 0.25⟩ : LTP).topic_cumulative "a"
            * calculateTimeDecay (⟨[("a", 10)], 2, 0.5, 0.5, [], some 0, 0.25⟩ : LTP).last_updated
              (⟨"s", 2, 0.7, 0.5, "a", "unknown", [], [("a", ⟨4, 1⟩)], 0⟩ : STP).calculated_at
          + jsGetRaw (⟨"s", 2, 0.7, 0.5, "a", "unknown", [], [("a", ⟨4, 1⟩)], 0⟩
              : STP).topic_cumulative "a"
            * jsOr (⟨"s", 2, 0.7, 0.5, "a", "unknown", [], [("a", ⟨4, 1⟩)], 0⟩
                : STP).engagement_confidence 0.5 :=
  ⟨by decide, claim_C1.1 _ _ "a" (by decide)⟩

/-- **C3** (amended) — Cold start: a session with `engagementConfidence < 0.5`
(including the empty-session sentinel, whose confidence is `0`) leaves the
empty LTP unchanged; with `engagementConfidence ≥ 0.5` the seeded LTP has
`sessions_seen = 1`, `confidence = 1/8`, the STP's raw topic scores, and
`ewmaFocus = engagementConfidence` — but `ewmaDepth` is
`1 − diversityEntropy` only when the entropy is nonzero; entropy `0` falls
back to `1 − 0.5` (JavaScript `0 || 0.5`). -/
theorem claim_C3 :
    (∀ stp : STP, stp.engagement_confidence < 0.5 →
      coldStartLTP stp = getEmptyLTP ∧ (coldStartLTP stp).sessions_seen = 0)
    ∧ (∀ stp : STP, 0.5 ≤ stp.engagement_confidence →
      (coldStartLTP stp).sessions_seen = 1
      ∧ (coldStartLTP stp).confidence = 1 / 8
      ∧ (coldStartLTP stp).topic_cumulative
          = stp.topic_cumulative.map (fun p => (p.1, p.2.rawScore))
      ∧ (coldStartLTP stp).ewma_focus = stp.engagement_confidence
      ∧ (coldStartLTP stp).ewma_depth = 1 - jsOr stp.diversity_entropy 0.5)
    ∧ (∀ (sid : String) (now : ℝ), coldStartLTP (getEmptySTP sid now) = getEmptyLTP) := by
  refine ⟨?_, ?_, ?_⟩
  · intro stp h
    unfold coldStartLTP
    rw [if_pos h]
    exact ⟨rfl, rfl⟩
  · intro stp h
    have hne : stp.engagement_confidence ≠ 0 :=
      (ne_of_lt (lt_of_lt_of_le (by norm_num) h)).symm
    unfold coldStartLTP
    rw [if_neg (not_lt.mpr h)]
    refine ⟨rfl, ?_, rfl, ?_, rfl⟩
    · show (1 : ℝ) / (MAX_SESSIONS_FOR_CONFIDENCE : ℝ) = 1 / 8
      norm_num [MAX_SESSIONS_FOR_CONFIDENCE]
    · show jsOr stp.engagement_confidence 0.5 = stp.engagement_confidence
      unfold jsOr
      rw [if_neg hne]
  · intro sid now
    unfold coldStartLTP
    rw [if_pos (show (getEmptySTP sid now).engagement_confidence < 0.5 by
      show (0:ℝ) < 0.5
      norm_num)]

/-- C3 as literally stated is false: at `diversityEntropy = 0` (a
single-topic session) the cold-started `ewma_depth` is `1 − 0.5 = 0.5`,
not `1 − 0 = 1`. -/
theorem claim_C3_counterexample :
    ¬ ((coldStartLTP ⟨"s", 1, 0.8, 0, "t", "unknown", [], [], 0⟩).ewma_depth
        = 1 - (⟨"s", 1, 0.8, 0, "t", "unknown", [], [], 0⟩ : STP).diversity_entropy) := by
  unfold coldStartLTP
  rw [if_neg (show ¬ ((⟨"s", 1, 0.8, 0, "t", "unknown", [], [], 0⟩
      : STP).engagement_confidence < 0.5) by
    show ¬ ((0.8 : ℝ) < 0.5)
    norm_num)]
  show ¬ (1 - jsOr 0 0.5 = 1 - 0)
  unfold jsOr
  norm_num

/-- Witness for C3: a confidence-0.4 session is rejected; a confidence-0.8
session seeds `sessions_seen = 1`. -/
theorem claim_C3_witness :
    coldStartLTP ⟨"s", 1, 0.4, 0.5, "t", "unknown", [], [], 0⟩ = getEmptyLTP
    ∧ (coldStartLTP ⟨"s", 1, 0.8, 0.5, "t", "unknown", [], [], 0⟩).sessions_seen = 1 :=
  ⟨(claim_C3.1 _ (show (0.4:ℝ) < 0.5 by norm_num)).1,
   (claim_C3.2.1 _ (show (0.5:ℝ) ≤ 0.8 by norm_num)).1⟩

/-- **C7** (amended) — Warm EWMA updates with `α = 0.1`:
`ewmaFocus' = 0.9·ewmaFocus + 0.1·engagementConfidence` exactly as claimed;
the depth sample, however, is `1 − (diversityEntropy || 0.5)`, so the claimed
`1 − diversityEntropy` holds only for nonzero entropy; every intent type
present in the STP's intent scores is blended by the same EWMA rule with
missing old intents defaulting to `0`. -/
theorem claim_C7 :
    EWMA_ALPHA = 0.1
    ∧ (∀ (ltp : LTP) (stp : STP),
      (updateLTP ltp stp).ewma_focus
        = (1 - EWMA_ALPHA) * ltp.ewma_focus + EWMA_ALPHA * stp.engagement_confidence
      ∧ (updateLTP ltp stp).ewma_depth
        = (1 - EWMA_ALPHA) * ltp.ewma_depth
          + EWMA_ALPHA * (1 - jsOr stp.diversity_entropy 0.5)
      ∧ ((stp.intent_scores.map Prod.fst).Nodup →
          ∀ i ∈ stp.intent_scores.map Prod.fst,
            jsGet (updateLTP ltp stp).intent_aggregate i
              = (1 - EWMA_ALPHA) * jsGet ltp.intent_aggregate i
                + EWMA_ALPHA * jsGet stp.intent_scores i)) := by
  refine ⟨rfl, fun ltp stp => ⟨updateLTP_ewma_focus ltp stp, updateLTP_ewma_depth ltp stp, ?_⟩⟩
  intro hnd i hi
  rw [updateLTP_intent_aggregate, jsGet_updateIntentAggregate _ _ _ _ hnd, if_pos hi]
  rfl

/-- C7 as literally stated is false: at `diversityEntropy = 0` the depth
sample becomes `1 − 0.5` instead of `1 − 0`, so
`ewmaDepth' = 0.9·0.5 + 0.1·0.5 = 0.5` instead of the claimed `0.55`. -/
theorem claim_C7_counterexample :
    ¬ ((updateLTP ⟨[], 1, 0.5, 0.5, [], some 0, 0.125⟩
          ⟨"s", 1, 0.6, 0, "t", "unknown", [], [], 0⟩).ewma_depth
        = (1 - EWMA_ALPHA) * (⟨[], 1, 0.5, 0.5, [], some 0, 0.125⟩ : LTP).ewma_depth
          + EWMA_ALPHA
            * (1 - (⟨"s", 1, 0.6, 0, "t", "unknown", [], [], 0⟩
                : STP).diversity_entropy)) := by
  rw [updateLTP_ewma_depth]
  show ¬ (updateEWMA 0.5 (1 - jsOr 0 0.5) EWMA_ALPHA
    = (1 - EWMA_ALPHA) * 0.5 + EWMA_ALPHA * (1 - 0))
  unfold updateEWMA jsOr EWMA_ALPHA
  norm_num

/-- Witness for C7's intent-EWMA part at a concrete input. -/
theorem claim_C7_witness :
    (((⟨"s", 1, 0.6, 0.5, "t", "unknown", [("informational", 0.7)], [], 0⟩
        : STP).intent_scores.map Prod.fst).Nodup)
    ∧ jsGet (updateLTP ⟨[], 1, 0.5, 0.5, [], some 0, 0.125⟩
          ⟨"s", 1, 0.6, 0.5, "t", "unknown", [("informational", 0.7)], [], 0⟩).intent_aggregate
          "informational"
        = (1 - EWMA_ALPHA)
            * jsGet (⟨[], 1, 0.5, 0.5, [], some 0, 0.125⟩ : LTP).intent_aggregate "informational"
          + EWMA_ALPHA
            * jsGet (⟨"s", 1, 0.6, 0.5, "t", "unknown", [("informational", 0.7)], [], 0⟩
                : STP).intent_scores "informational" :=
  ⟨by decide,
   (claim_C7.2 ⟨[], 1, 0.5, 0.5, [], some 0, 0.125⟩
      ⟨"s", 1, 0.6, 0.5, "t", "unknown", [("informational", 0.7)], [], 0⟩).2.2
     (by decide) "informational" (by decide)⟩

/-- **C4** — `normalizeTopicMap` on non-negative raw scores: total ≤ 0 gives
the empty map; every weight of the result lies in `[0, 1]`; a non-empty
result's weights sum to `1` exactly, hence within `[0.99, 1.01]`. -/
theorem claim_C4 :
    ∀ m : List (String × ℝ), (∀ p ∈ m, 0 ≤ p.2) →
      ((m.map Prod.snd).sum ≤ 0 → normalizeTopicMap m = [])
      ∧ (∀ p ∈ normalizeTopicMap m, 0 ≤ p.2 ∧ p.2 ≤ 1)
      ∧ (normalizeTopicMap m ≠ [] →
          (0.99:ℝ) ≤ ((normalizeTopicMap m).map Prod.snd).sum
            ∧ ((normalizeTopicMap m).map Prod.snd).sum ≤ 1.01) := by
  intro m hnn
  have hT0 : (0:ℝ) ≤ (m.map Prod.snd).sum := by
    apply List.sum_nonneg
    intro x hx
    obtain ⟨p, hp, rfl⟩ := List.mem_map.mp hx
    exact hnn p hp
  refine ⟨?_, ?_, ?_⟩
  · intro hle
    exact normalizeTopicMap_of_total_eq_zero m (le_antisymm hle hT0)
  · intro p hp
    have hne : normalizeTopicMap m ≠ [] := by
      intro hnil
      rw [hnil] at hp
      simp at hp
    obtain ⟨hb, _⟩ := normalizeTopicMap_spec m hnn hne
    obtain ⟨h1, h2⟩ := hb p hp
    exact ⟨by linarith, h2⟩
  · intro hne
    obtain ⟨_, hs⟩ := normalizeTopicMap_spec m hnn hne
    rw [hs]
    norm_num

/-- Witness for C4 on the concrete raw map `{a: 2, b: 3}`. -/
theorem claim_C4_witness :
    (∀ p ∈ [("a", (2:ℝ)), ("b", 3)], 0 ≤ p.2)
    ∧ ((([("a", (2:ℝ)), ("b", 3)].map Prod.snd).sum ≤ 0 →
          normalizeTopicMap [("a", 2), ("b", 3)] = [])
       ∧ (∀ p ∈ normalizeTopicMap [("a", (2:ℝ)), ("b", 3)], 0 ≤ p.2 ∧ p.2 ≤ 1)
       ∧ (normalizeTopicMap [("a", (2:ℝ)), ("b", 3)] ≠ [] →
           (0.99:ℝ) ≤ ((normalizeTopicMap [("a", (2:ℝ)), ("b", 3)]).map Prod.snd).sum
             ∧ ((normalizeTopicMap [("a", (2:ℝ)), ("b", 3)]).map Prod.snd).sum ≤ 1.01)) := by
  have h : ∀ p ∈ [("a", (2:ℝ)), ("b", 3)], 0 ≤ p.2 := by
    intro p hp
    fin_cases hp <;> norm_num
  exact ⟨h, claim_C4 _ h⟩

/-- **C9** — `normalizeTopicMap` is idempotent on non-negative raw maps. -/
theorem claim_C9 :
    ∀ m : List (String × ℝ), (∀ p ∈ m, 0 ≤ p.2) →
      normalizeTopicMap (normalizeTopicMap m) = normalizeTopicMap m :=
  normalizeTopicMap_idem_aux

/-- Witness for C9 on the concrete raw map `{x: 1}`. -/
theorem claim_C9_witness :
    (∀ p ∈ [("x", (1:ℝ))], 0 ≤ p.2)
    ∧ normalizeTopicMap (normalizeTopicMap [("x", (1:ℝ))]) = normalizeTopicMap [("x", 1)] := by
  have h : ∀ p ∈ [("x", (1:ℝ))], 0 ≤ p.2 := by
    intro p hp
    fin_cases hp
    norm_num
  exact ⟨h, claim_C9 _ h⟩

/-- **C10** (amended) — For a session with at least one event, the built
STP's `session_length_min` is `calculateSessionDurationFromBehaviors`, which
equals `max(total active minutes, timestamp span in minutes, 1)` and is
always `≥ 1`; the empty-session sentinel STP, however, carries
`session_length_min = 0`. -/
theorem claim_C10 :
    (∀ (searches : List SearchEvent) (urlBehaviors : List UrlBehavior)
        (sid : String) (now : ℝ),
      ¬ (searches = [] ∧ urlBehaviors = []) →
        buildSTP_session_length_min searches urlBehaviors sid now
          = calculateSessionDurationFromBehaviors urlBehaviors
        ∧ 1 ≤ buildSTP_session_length_min searches urlBehaviors sid now)
    ∧ (∀ urlBehaviors : List UrlBehavior,
        1 ≤ calculateSessionDurationFromBehaviors urlBehaviors)
    ∧ (∀ urlBehaviors : List UrlBehavior, urlBehaviors ≠ [] →
        calculateSessionDurationFromBehaviors urlBehaviors
          = max ((urlBehaviors.map (fun b => b.activeTime.getD 0)).sum / 60)
              (max
                (match urlBehaviors.filterMap (fun b =>
                    match b.startTime, b.endTime with
                    | some s, some e => some (s, e)
                    | _, _ => none) with
                  | [] => 1
                  | t :: ts => (((ts.map Prod.snd).foldl max t.2)
                      - ((ts.map Prod.fst).foldl min t.1)) / (1000 * 60))
                1)) := by
  have hge : ∀ urlBehaviors : List UrlBehavior,
      1 ≤ calculateSessionDurationFromBehaviors urlBehaviors := by
    intro l
    unfold calculateSessionDurationFromBehaviors
    split_ifs with hl
    · exact le_refl 1
    · exact le_max_of_le_right (le_max_right _ _)
  refine ⟨?_, hge, ?_⟩
  · intro searches urlBehaviors sid now h
    unfold buildSTP_session_length_min
    rw [if_neg h]
    exact ⟨rfl, hge urlBehaviors⟩
  · intro l hl
    unfold calculateSessionDurationFromBehaviors
    rw [if_neg hl]

/-- C10 as literally stated is false: `buildSTP` on a session with zero
events returns the sentinel `getEmptySTP`, whose `session_length_min` is
`0`, not `≥ 1`. -/
theorem claim_C10_counterexample :
    ¬ (1 ≤ buildSTP_session_length_min [] [] "s" 0) := by
  unfold buildSTP_session_length_min
  rw [if_pos ⟨rfl, rfl⟩]
  show ¬ ((1:ℝ) ≤ 0)
  norm_num

/-- Witness for C10 on a one-page session (120 seconds of active time). -/
theorem claim_C10_witness :
    ¬ (([] : List SearchEvent) = []
        ∧ ([⟨some 120, none, none, some 50⟩] : List UrlBehavior) = [])
    ∧ 1 ≤ buildSTP_session_length_min []
        [⟨some 120, none, none, some 50⟩] "s" 0 := by
  have h : ¬ (([] : List SearchEvent) = []
      ∧ ([⟨some 120, none, none, some 50⟩] : List UrlBehavior) = []) := by
    simp
  exact ⟨h, (claim_C10.1 [] [⟨some 120, none, none, some 50⟩] "s" 0 h).2⟩

end Crucible
